import Mathlib

/-!
Shallow embedding of the Splitgraph object manager
(file splitgraph/core/object_manager.py) together with the fragment
application semantics of the Postgres engine
(file splitgraph/engine/postgres/engine.py), used to check the claims of
the specification against the code.

Modelling conventions:
* object ids, primary keys and column names are opaque and are modelled
  as natural numbers;
* database tables (object_cache_status, snap_cache, snap_cache_misses,
  objects) are modelled as association lists or as functions;
* SQL numeric values use Int or Nat; the floating-point configuration
  values (cache size, eviction targets) use Rat;
* fallible code returns Except SgError.
-/

namespace SGR

/-- Object ids (opaque 248-bit random strings in the source) are modelled
as natural numbers; only equality on them is ever used. -/
abbrev ObjectId := Nat

/-- Errors raised by the object manager (SplitGraphException instances in
the source, distinguished here by their message). -/
inductive SgError where
  | malformedInsert : SgError
  | malformedDelete : SgError
  | cacheTooSmall : SgError
  | insufficientReclaimable : SgError
  | fetchIncomplete : SgError
deriving DecidableEq, Repr

/-! ## Fragment application (engine method generated by
_generate_fragment_application, called through apply_fragment)

A fragment row is the upsert/delete flag sg_ud_flag followed by the row;
a materialized row is a primary key paired with the non-key columns.
Applying a fragment first deletes every row of the target whose key is
mentioned in the fragment, then inserts the fragment rows whose flag is
true. -/

/-- Rows of a materialized table: primary key and non-key data. -/
abbrev TableRow (K V : Type) := K × V

/-- Rows of a DIFF fragment: sg_ud_flag, primary key, non-key data. -/
abbrev FragmentRow (K V : Type) := Bool × K × V

/-- Embeds the SQL emitted by _generate_fragment_application: DELETE all
target rows whose key appears in the fragment, then INSERT the fragment
rows whose sg_ud_flag is true. -/
def applyFragment {K V : Type} [DecidableEq K] (frag : List (FragmentRow K V))
    (t : List (TableRow K V)) : List (TableRow K V) :=
  (t.filter (fun r => !(frag.any (fun f => decide (f.2.1 = r.1)))))
    ++ (frag.filter (fun f => f.1)).map (fun f => f.2)

/-- Table contents produced by _create_and_register_temporary_snap: the
base SNAP is copied and then the DIFF objects are applied by the loop
`for diff in diffs`, i.e. in the order of the diffs list as held by
ensure_objects (which is latest object first, per the docstring of
_get_image_object_path). -/
def createTempSnapContents {K V : Type} [DecidableEq K]
    (snapContents : List (TableRow K V)) (diffs : List (List (FragmentRow K V))) :
    List (TableRow K V) :=
  diffs.foldl (fun t d => applyFragment d t) snapContents

/-- Modelled from the spec: materializing the chain snap-first,
oldest-to-newest (the order in which ensure_objects yields the chain to
the caller, `[snap] + reversed(diffs)`, and the order stated in section
4.7 of the spec).  The diffs argument is latest-first, as held by
ensure_objects, so the chain order is its reverse. -/
def materializeChainContents {K V : Type} [DecidableEq K]
    (snapContents : List (TableRow K V)) (diffs : List (List (FragmentRow K V))) :
    List (TableRow K V) :=
  diffs.reverse.foldl (fun t d => applyFragment d t) snapContents

/-! ## Resolver (_get_image_object_path, get_all_required_objects) -/

/-- Embeds the recursive CTE of get_all_required_objects: follow the
parent links from the given object, returning the path with the head
object first and the root last.  The fuel argument bounds the recursion
depth (the chain length); callers supply fuel at least the chain length. -/
def getAllRequiredObjects (parent : ObjectId → Option ObjectId) :
    Nat → ObjectId → List ObjectId
  | 0, o => [o]
  | n + 1, o =>
    o :: (match parent o with
          | none => []
          | some p => getAllRequiredObjects parent n p)

/-- Embeds the loop of _get_image_object_path over the path: walk the
path accumulating final_path; if a snap-cache entry exists for the
current object, short-circuit and return (cached snap, path above it);
otherwise return (last element of the path, path without its last
element). -/
def imagePathTraverse (snapCacheFor : ObjectId → Option ObjectId) :
    List ObjectId → List ObjectId → ObjectId × List ObjectId
  | [], finalPath => (finalPath.getLastD 0, finalPath.dropLast)
  | o :: rest, finalPath =>
    match snapCacheFor o with
    | some cachedSnap => (cachedSnap, finalPath)
    | none => imagePathTraverse snapCacheFor rest (finalPath ++ [o])

/-- Embeds _get_image_object_path.  The table is abstracted by its SNAP
object (if any) and its DIFF head object; snapCacheFor embeds
_get_snap_cache_for (the snap_cache row keyed by a diff id). -/
def getImageObjectPath (snapObject diffObject : Option ObjectId)
    (snapCacheFor : ObjectId → Option ObjectId)
    (parent : ObjectId → Option ObjectId) (fuel : Nat) : ObjectId × List ObjectId :=
  match snapObject with
  | some s => (s, [])
  | none =>
    let objectId := diffObject.getD 0
    match snapCacheFor objectId with
    | some snapId => (snapId, [])
    | none => imagePathTraverse snapCacheFor (getAllRequiredObjects parent fuel objectId) []

/-- The list ensure_objects hands to the caller in the absence of
promotion: `yield [snap] + list(reversed(diffs))`. -/
def ensureObjectsYield (snapObject diffObject : Option ObjectId)
    (snapCacheFor : ObjectId → Option ObjectId)
    (parent : ObjectId → Option ObjectId) (fuel : Nat) : List ObjectId :=
  let sd := getImageObjectPath snapObject diffObject snapCacheFor parent fuel
  sd.1 :: sd.2.reverse

/-! ## Snap-cache miss log and the promotion decision
(_store_snap_cache_miss, _recent_snap_cache_misses and the promote branch
of ensure_objects, lines 602 to 620 of object_manager.py) -/

/-- One INSERT into snap_cache_misses: append a (diff_id, used_time) row. -/
def storeSnapCacheMiss (log : List (ObjectId × Int)) (diffId : ObjectId)
    (t : Int) : List (ObjectId × Int) :=
  log ++ [(diffId, t)]

/-- Embeds _recent_snap_cache_misses: COUNT of rows with the given
diff_id and used_time strictly greater than the cutoff. -/
def recentSnapCacheMisses (log : List (ObjectId × Int)) (diffId : ObjectId)
    (start : Int) : Nat :=
  (log.filter (fun e => decide (e.1 = diffId) && decide (start < e.2))).length

/-- The miss log produced by a sequence of ensure_objects calls for the
same chain head, each appending one row via _store_snap_cache_miss. -/
def snapCacheMissLogAfter (diffId : ObjectId) (times : List Int) :
    List (ObjectId × Int) :=
  times.foldl (fun log t => storeSnapCacheMiss log diffId t) []

/-- The promotion decision taken by call number k (1-indexed, happening
at time times[k-1]) of a sequence of unfiltered ensure_objects calls for
the same delta-chain head: the code first logs the miss for the current
call and then compares _recent_snap_cache_misses against the threshold
(cache_misses_for_snap), so the count includes the current call. -/
def promotionFiresAt (diffId : ObjectId) (times : List Int) (lookback : Int)
    (threshold : Nat) (k : Nat) : Bool :=
  match times[k - 1]? with
  | none => false
  | some now =>
    decide (threshold ≤
      recentSnapCacheMisses (snapCacheMissLogAfter diffId (times.take k)) diffId
        (now - lookback))

/-! ## Fragment-index qualifier filter (_qual_to_clause, _quals_to_clause,
_filter_objects) -/

/-- Qualifier operators.  The source dispatches on the literal operator
strings; the constructors stand for those strings as follows:
opGt is the string >, opGe is >=, opLt is <, opLe is <=,
opEqEq is the two-character string == (the spelling the source tests in
`operator in ('==', '<>')`), opNe is <>, opEq is the one-character
documented equality spelling =, and opLike is the LIKE operator ~~.
The spellings opEq and opLike are not handled by any branch of
_qual_to_clause and fall into its catch-all. -/
inductive QualOp where
  | opGt | opGe | opLt | opLe | opEqEq | opNe | opEq | opLike
deriving DecidableEq, Repr

/-- Embeds _qual_to_clause evaluated against one object index entry.
The index maps a column to its recorded (min, max) range; a column
absent from the index makes the clause true.  For the handled operators
the generated SQL checks the range; for every other operator the
function returns the constant TRUE clause. -/
def qualToClause (index : Nat → Option (Int × Int)) (column : Nat)
    (operator : QualOp) (value : Int) : Bool :=
  match index column with
  | none => true
  | some (mn, mx) =>
    match operator with
    | .opGt => decide (mx > value)
    | .opGe => decide (mx ≥ value)
    | .opLt => decide (mn < value)
    | .opLe => decide (mn ≤ value)
    | .opEqEq => decide (mn ≤ value ∧ value ≤ mx)
    | .opNe => !(decide (mn ≤ value ∧ value ≤ mx))
    | _ => true

/-- Embeds _quals_to_clause and _filter_objects: the qualifier list is in
CNF (outer AND of inner ORs); an object is kept when every inner
disjunction has some satisfiable atom. -/
def filterObjects (objectIds : List ObjectId)
    (indexOf : ObjectId → Nat → Option (Int × Int))
    (quals : List (List (Nat × QualOp × Int))) : List ObjectId :=
  objectIds.filter (fun o =>
    quals.all (fun orQuals =>
      orQuals.any (fun q => qualToClause (indexOf o) q.1 q.2.1 q.2.2)))

/-! ## Change conflation (_conflate_changes)

Change kinds are the integers of the source: 0 is insert, 1 is delete,
2 is update.  Row data is a field map, modelled as an association list
from column to value (both opaque naturals). -/

/-- Field maps carried by change-log entries. -/
abbrev ChangeData := List (Nat × Nat)

/-- Python dict.update on a field map: values of the second map override
those of the first, new keys are appended. -/
def dictUpdate (old new : ChangeData) : ChangeData :=
  old.map (fun kv =>
    match new.find? (fun nv => decide (nv.1 = kv.1)) with
    | some nv => (kv.1, nv.2)
    | none => kv)
  ++ new.filter (fun nv => !(old.any (fun kv => decide (kv.1 = nv.1))))

/-- changeset.get(pk) on the changeset dict, modelled as an association
list with distinct keys. -/
def csLookup {K : Type} [DecidableEq K] (changeset : List (K × Nat × ChangeData))
    (pk : K) : Option (Nat × ChangeData) :=
  (changeset.find? (fun e => decide (e.1 = pk))).map (fun e => e.2)

/-- del changeset[pk]. -/
def csErase {K : Type} [DecidableEq K] (changeset : List (K × Nat × ChangeData))
    (pk : K) : List (K × Nat × ChangeData) :=
  changeset.filter (fun e => !(decide (e.1 = pk)))

/-- changeset[pk] = v for a key already present (in-place value update of
the dict entry). -/
def csSet {K : Type} [DecidableEq K] (changeset : List (K × Nat × ChangeData))
    (pk : K) (v : Nat × ChangeData) : List (K × Nat × ChangeData) :=
  changeset.map (fun e => if e.1 = pk then (pk, v) else e)

/-- Embeds one step of _conflate_changes incorporating a single new
change (pk, kind, data) into the changeset.  Mirrors the source branch
for branch, including the mutation order of the delete branch (the dict
entry is deleted first; an update predecessor then re-adds a delete
entry, and a delete predecessor raises). -/
def conflateChange {K : Type} [DecidableEq K]
    (changeset : List (K × Nat × ChangeData)) (pk : K) (kind : Nat)
    (data : ChangeData) : Except SgError (List (K × Nat × ChangeData)) :=
  match csLookup changeset pk with
  | none => .ok (changeset ++ [(pk, kind, data)])
  | some oldChange =>
    if kind = 0 then
      if oldChange.1 = 1 then
        if data = [] then .ok (csErase changeset pk)
        else .ok (csSet changeset pk (2, data))
      else .error .malformedInsert
    else if kind = 1 then
      let cs := csErase changeset pk
      if oldChange.1 = 2 then .ok (cs ++ [(pk, 1, data)])
      else if oldChange.1 = 1 then .error .malformedDelete
      else .ok cs
    else if kind = 2 then
      if oldChange.1 = 0 || oldChange.1 = 2 then
        .ok (csSet changeset pk (oldChange.1, dictUpdate oldChange.2 data))
      else .ok changeset
    else .ok changeset


/-! ## Refcount accounting of the ensure_objects scope
(_claim_objects, _release_objects and the finally block,
lines 564 to 644 of object_manager.py) -/

/-- Embeds _claim_objects restricted to the refcount column: the batch
upsert runs one INSERT ... ON CONFLICT row per list entry, so each entry
increments the refcount of its object (a fresh row starts at
refcount 1 = 0 + 1, absent rows being counted as 0 here). -/
def claimRefcounts (m : ObjectId → Int) (objs : List ObjectId) : ObjectId → Int :=
  objs.foldl (fun acc o => fun x => if x = o then acc x + 1 else acc x) m

/-- Embeds _release_objects restricted to the refcount column: a single
UPDATE with an IN list decrements each matching row exactly once, however
often an id repeats in the list. -/
def releaseRefcounts (m : ObjectId → Int) (objs : List ObjectId) : ObjectId → Int :=
  fun x => if x ∈ objs then m x - 1 else m x

/-- The refcount effect of one complete pass through the ensure_objects
scope: the Claim phase on the required set; optionally the
release-then-reclaim pair run at the end of run_eviction; on promotion,
the release of the original required set followed by a claim of the new
snapshot id (lines 616 to 619); finally the release of the
finally-pinned set in the finally block, which runs on normal exit and
when the caller body raises alike, so no separate flag is needed for
the two exit paths. -/
def ensureObjectsScopeRefcounts (m : ObjectId → Int) (required : List ObjectId)
    (evicted promoted : Bool) (newSnap : ObjectId) : ObjectId → Int :=
  let m1 := claimRefcounts m required
  let m2 := if evicted then claimRefcounts (releaseRefcounts m1 required) required else m1
  let p := if promoted then
      (claimRefcounts (releaseRefcounts m2 required) [newSnap], [newSnap])
    else (m2, required)
  releaseRefcounts p.1 p.2

/-! ## Cache-status rows and transaction state (the fetch-failure path of
ensure_objects, lines 564 to 594, and run_eviction, lines 743 to 832) -/

/-- A cache-status row: object id, ready flag, refcount.  The last_used
column is not modelled; it is wholesale-restored or committed together
with the rest of the row by the transaction operations below. -/
abbrev CacheRow := ObjectId × Bool × Int

/-- Embeds one row of the _claim_objects batch upsert: on conflict the
refcount is incremented, otherwise a row (ready false, refcount 1) is
inserted. -/
def upsertCacheRow (rows : List CacheRow) (o : ObjectId) : List CacheRow :=
  if rows.any (fun r => decide (r.1 = o)) then
    rows.map (fun r => if r.1 = o then (r.1, r.2.1, r.2.2 + 1) else r)
  else rows ++ [(o, false, 1)]

/-- Embeds _claim_objects on the cache-status rows. -/
def claimCacheRows (rows : List CacheRow) (objs : List ObjectId) : List CacheRow :=
  objs.foldl upsertCacheRow rows

/-- Embeds _release_objects on the cache-status rows. -/
def releaseCacheRows (rows : List CacheRow) (objs : List ObjectId) : List CacheRow :=
  rows.map (fun r => if r.1 ∈ objs then (r.1, r.2.1, r.2.2 - 1) else r)

/-- The DELETE of selected rows from object_cache_status in
run_eviction. -/
def deleteCacheRows (rows : List CacheRow) (objs : List ObjectId) : List CacheRow :=
  rows.filter (fun r => !(decide (r.1 ∈ objs)))

/-- The transactional view of object_cache_status: the last committed
rows and the rows visible to the open transaction. -/
structure CacheTxState where
  committed : List CacheRow
  current : List CacheRow
deriving DecidableEq, Repr

/-- engine.commit: the current rows become the committed rows. -/
def txCommit (st : CacheTxState) : CacheTxState := ⟨st.current, st.current⟩

/-- engine.rollback: the current rows revert to the committed rows. -/
def txRollback (st : CacheTxState) : CacheTxState := ⟨st.committed, st.committed⟩

/-- The (ready, refcount) columns of the cache-status row of an object,
none when no row exists. -/
def cacheRowFor (rows : List CacheRow) (o : ObjectId) : Option (Bool × Int) :=
  (rows.find? (fun r => decide (r.1 = o))).map (fun r => r.2)

/-! ## Fetch planning (_prepare_fetch_list and get_cache_occupancy,
lines 690 to 714 and 440 to 451 of object_manager.py) -/

/-- Embeds get_cache_occupancy: the sizes of the objects whose
cache-status row is ready, plus the sizes recorded in the snap_cache
rows (snap id, diff id, size). -/
def getCacheOccupancy (rows : List CacheRow) (size : ObjectId → Nat)
    (snapCache : List (ObjectId × ObjectId × Nat)) : Nat :=
  ((rows.filter (fun r => r.2.1)).map (fun r => size r.1)).sum
    + (snapCache.map (fun e => e.2.2)).sum

/-- to_fetch: the required objects missing from the physical store. -/
def toFetchList (required : List ObjectId) (downloaded : ObjectId → Bool) :
    List ObjectId :=
  required.filter (fun o => !(downloaded o))

/-- required_space: the summed metadata sizes of the objects to fetch,
compared against the float-valued cache size, hence rational here. -/
def requiredSpaceOf (toFetch : List ObjectId) (size : ObjectId → Nat) : Rat :=
  ((toFetch.map size).sum : Nat)

/-- Embeds _prepare_fetch_list.  The result carries the objects to fetch
together with the eviction target handed to run_eviction (none when
eviction is not invoked).  When nothing is missing the function returns
at once; otherwise it fails when the missing size alone exceeds the
cache size, and runs eviction when the missing size does not fit next to
the current occupancy, targeting exactly the overshoot. -/
def prepareFetchList (required : List ObjectId) (downloaded : ObjectId → Bool)
    (size : ObjectId → Nat) (occupancy : Nat) (cacheSize : Rat) :
    Except SgError (List ObjectId × Option Rat) :=
  let toFetch := toFetchList required downloaded
  if toFetch.isEmpty then .ok (toFetch, none)
  else
    let requiredSpace := requiredSpaceOf toFetch size
    if requiredSpace > cacheSize then .error .cacheTooSmall
    else if requiredSpace > cacheSize - (occupancy : Rat) then
      .ok (toFetch, some (requiredSpace + (occupancy : Rat) - cacheSize))
    else .ok (toFetch, none)

/-! ## cleanup (lines 899 to 943 of object_manager.py) -/

/-- The ancestor of an object at depth n along the parent links. -/
def parentIterate (parent : ObjectId → Option ObjectId) :
    Nat → ObjectId → Option ObjectId
  | 0, o => some o
  | n + 1, o =>
    match parent o with
    | none => none
    | some p => parentIterate parent n p

/-- Embeds the while-loop of cleanup that expands the set of
table-referenced objects with the parents reported by get_object_meta
until no new parent appears; fuel bounds the number of iterations, each
of which adds every missing parent of the current set. -/
def expandPrimaryObjects (parent : ObjectId → Option ObjectId) :
    Nat → List ObjectId → List ObjectId
  | 0, objs => objs
  | fuel + 1, objs =>
    if (((objs.filterMap parent).filter (fun p => !(decide (p ∈ objs)))).dedup).isEmpty
    then objs
    else expandPrimaryObjects parent fuel
      (objs ++ ((objs.filterMap parent).filter (fun p => !(decide (p ∈ objs)))).dedup)

/-- Embeds the final selection of cleanup: every table of the meta schema
that is neither an expanded table-referenced object nor a snap_cache
snapshot id is dropped. -/
def cleanupToDelete (tablesInMeta primaryObjects snapCacheIds : List ObjectId) :
    List ObjectId :=
  tablesInMeta.filter (fun o =>
    !(decide (o ∈ primaryObjects)) && !(decide (o ∈ snapCacheIds)))

/-- Embeds cleanup end to end on the physical-table selection: expand the
table-referenced objects, then drop everything else except the snap-cache
snapshots. -/
def cleanup (parent : ObjectId → Option ObjectId) (fuel : Nat)
    (tableObjects tablesInMeta snapCacheIds : List ObjectId) : List ObjectId :=
  cleanupToDelete tablesInMeta (expandPrimaryObjects parent fuel tableObjects)
    snapCacheIds

/-! ## Eviction candidate selection (run_eviction, lines 743 to 832) -/

/-- An eviction candidate: a cache-status row with refcount 0 outside the
protected set, carrying the object id, the size obtained through
_object_size and the eviction score computed by _eviction_score.  In the
source the score exp(-decay * dt) * max(size, floor) is computed in
floating point; it is carried here as an abstract rational sort key, so
the selection theorem holds for every score assignment and in particular
for the one of the source. -/
structure EvictionCandidate where
  oid : ObjectId
  size : Nat
  score : Rat
deriving DecidableEq, Repr

/-- The size factor of _eviction_score: the object size floored to
eviction_floor (the source writes it as a conditional). -/
def evictionSizeFactor (objectSize floor : Rat) : Rat :=
  if objectSize > floor then objectSize else floor

/-- The candidate sizes summed, as in the reclaimability check of
run_eviction and in its freed-space accumulation. -/
def candidatesTotalSize (candidates : List EvictionCandidate) : Rat :=
  (candidates.map (fun c => (c.size : Rat))).sum

/-- The greedy selection loop of run_eviction: keep appending deletion
candidates in the given order, accumulating freed space, and stop as
soon as the freed space reaches the required space. -/
def greedyEvict : List EvictionCandidate → Rat → List ObjectId → Rat → List ObjectId
  | [], _, acc, _ => acc
  | c :: rest, req, acc, freed =>
    if freed + (c.size : Rat) ≥ req then acc ++ [c.oid]
    else greedyEvict rest req (acc ++ [c.oid]) (freed + (c.size : Rat))

/-- Embeds run_eviction restricted to the selection of the objects to
delete.  With no required space every candidate is deleted; otherwise
the run fails when even deleting every candidate cannot free the
required space, and else deletes candidates in ascending score order
(python sorted is a stable sort, modelled by mergeSort) until the freed
space reaches the required space. -/
def runEviction (candidates : List EvictionCandidate) (requiredSpace : Option Rat) :
    Except SgError (List ObjectId) :=
  match requiredSpace with
  | none => .ok (candidates.map (fun c => c.oid))
  | some req =>
    if req > candidatesTotalSize candidates then .error .insufficientReclaimable
    else .ok (greedyEvict (candidates.mergeSort (fun a b => decide (a.score ≤ b.score)))
      req [] 0)

/-- The deletion candidates run_eviction reads under the exclusive lock:
cache-status rows with refcount 0 whose object is not in the protected
set, joined with their sizes (_object_size) and their eviction scores
(_eviction_score, abstracted as in EvictionCandidate). -/
def evictionCandidateRecords (rows : List CacheRow) (keep : List ObjectId)
    (size : ObjectId → Nat) (score : ObjectId → Rat) : List EvictionCandidate :=
  (rows.filter (fun r => decide (r.2.2 = 0) && !(decide (r.1 ∈ keep)))).map
    (fun r => ⟨r.1, size r.1, score r.1⟩)

/-- The cache-status transaction effects of run_eviction with a required
space: commit (dropping held row locks before taking the exclusive
lock), compute the candidates and the deletion set exactly as
runEviction does (raising the insufficient-reclaimable error when even
the full candidate set is too small, in which case nothing is deleted
and the exception propagates), delete the selected rows, commit again,
then release and re-claim the protected set, the last two steps left
uncommitted for the caller. -/
def runEvictionCacheTx (st : CacheTxState) (keep : List ObjectId)
    (size : ObjectId → Nat) (score : ObjectId → Rat) (target : Rat) :
    Except SgError CacheTxState :=
  let st1 := txCommit st
  (runEviction (evictionCandidateRecords st1.current keep size score) (some target)).map
    (fun toDelete =>
      let st2 := txCommit { st1 with current := deleteCacheRows st1.current toDelete }
      { st2 with current := claimCacheRows (releaseCacheRows st2.current keep) keep })

/-- The cache-status state at the end of an ensure_objects call whose
download step leaves some required object missing: the Claim phase
upserts the required set; when eviction is needed, run_eviction runs
inside _prepare_fetch_list with the strictly positive target computed
there, committing as a side effect (when run_eviction raises instead,
_prepare_fetch_list rolls back and re-raises, so the download step is
never reached: the error result); the missing-object check after the
download then rolls the transaction back and raises, before the yield
and before any release.  An ok result is the state the aborted call
leaves behind. -/
def ensureObjectsFetchFailState (st : CacheTxState) (required : List ObjectId)
    (evictionNeeded : Bool) (size : ObjectId → Nat) (score : ObjectId → Rat)
    (target : Rat) : Except SgError CacheTxState :=
  let st1 := { st with current := claimCacheRows st.current required }
  (if evictionNeeded then runEvictionCacheTx st1 required size score target
   else .ok st1).map txRollback

/-! ## Helper lemmas -/

theorem imagePathTraverse_no_cache (sc : ObjectId → Option ObjectId)
    (l : List ObjectId) (h : ∀ o ∈ l, sc o = none) :
    ∀ acc, imagePathTraverse sc l acc = ((acc ++ l).getLastD 0, (acc ++ l).dropLast) := by
  induction l with
  | nil => intro acc; simp [imagePathTraverse]
  | cons o rest ih =>
    intro acc
    rw [imagePathTraverse, h o (List.mem_cons_self o rest)]
    have step := ih (fun x hx => h x (List.mem_cons_of_mem _ hx)) (acc ++ [o])
    simpa [List.append_assoc] using step

theorem snapCacheMissLogAfter_eq_map (d : ObjectId) (times : List Int) :
    snapCacheMissLogAfter d times = times.map (fun t => (d, t)) := by
  have gen : ∀ (ts : List Int) (init : List (ObjectId × Int)),
      ts.foldl (fun log t => storeSnapCacheMiss log d t) init
        = init ++ ts.map (fun t => (d, t)) := by
    intro ts
    induction ts with
    | nil => intro init; simp
    | cons t rest ih =>
      intro init
      rw [List.foldl_cons, ih]
      simp [storeSnapCacheMiss]
  simpa [snapCacheMissLogAfter] using gen times []

theorem csLookup_erase {K : Type} [DecidableEq K]
    (cs : List (K × Nat × ChangeData)) (pk : K) :
    csLookup (csErase cs pk) pk = none := by
  unfold csLookup csErase
  induction cs with
  | nil => rfl
  | cons e rest ih =>
    by_cases h : e.1 = pk
    · simp [h]
    · simp [List.filter_cons, h, List.find?]

theorem csLookup_append {K : Type} [DecidableEq K]
    (l1 l2 : List (K × Nat × ChangeData)) (pk : K) :
    csLookup (l1 ++ l2) pk = (csLookup l1 pk).orElse (fun _ => csLookup l2 pk) := by
  unfold csLookup
  rw [List.find?_append]
  cases l1.find? (fun e => decide (e.1 = pk)) <;> simp

/-! ## Theorems for the claims -/

/-- Claim C7: for a table whose head object is a DIFF with parent chain
down to the root SNAP (the resolver path being ds followed by s0, with
ds latest-first as in the source docstring), no snap-cache entry on any
chain member and no qualifiers, ensure_objects yields exactly the root
SNAP followed by the DIFFs oldest-to-newest; when the head object is a
SNAP it yields that object alone. -/
theorem claim_C7_yield_order (dk s0 : ObjectId) (ds : List ObjectId)
    (parent snapCacheFor : ObjectId → Option ObjectId) (fuel : Nat)
    (hhead : ds.head? = some dk)
    (hpath : getAllRequiredObjects parent fuel dk = ds ++ [s0])
    (hsc : ∀ o ∈ ds ++ [s0], snapCacheFor o = none) :
    ensureObjectsYield none (some dk) snapCacheFor parent fuel = s0 :: ds.reverse ∧
    (∀ h : ObjectId, ensureObjectsYield (some h) (some dk) snapCacheFor parent fuel = [h]) := by
  constructor
  · have hmem : dk ∈ ds := by
      cases ds with
      | nil => simp at hhead
      | cons a t =>
        simp only [List.head?_cons, Option.some_inj] at hhead
        simp [hhead]
    have hdk : snapCacheFor dk = none := hsc dk (List.mem_append_left _ hmem)
    unfold ensureObjectsYield getImageObjectPath
    simp only [Option.getD_some]
    rw [hdk, hpath, imagePathTraverse_no_cache snapCacheFor _ hsc]
    simp
  · intro h
    rfl

/-- Claim C7 witness: chain 2 → 1 → 0 (head DIFF 2, DIFF 1, root SNAP 0),
empty snap cache: the yielded list is the SNAP followed by the DIFFs
oldest-to-newest. -/
theorem claim_C7_witness :
    ensureObjectsYield none (some 2) (fun _ => none)
      (fun o => if o = 2 then some 1 else if o = 1 then some 0 else none) 5
      = [0, 1, 2] :=
  (claim_C7_yield_order 2 0 [2, 1]
    (fun o => if o = 2 then some 1 else if o = 1 then some 0 else none)
    (fun _ => none) 5 (by decide) (by decide) (fun o _ => rfl)).1

/-- Claim C2 (amended): promotion fires on call k of a run of unfiltered
reads of the same delta-chain head exactly when the threshold is at most
k, because the miss logged by the current call is included in the count;
with promote_threshold 5 the fifth call, not the sixth, triggers creation
of the collapsed snapshot.  The hypothesis hwin states that every logged
miss lies within the lookback window of call k. -/
theorem claim_C2_amended (d : ObjectId) (times : List Int) (lookback : Int)
    (threshold : Nat) (k : Nat) (now : Int)
    (hk : times[k - 1]? = some now)
    (hkpos : 1 ≤ k)
    (hwin : ∀ t ∈ times.take k, now - lookback < t) :
    promotionFiresAt d times lookback threshold k = true ↔ threshold ≤ k := by
  have hred : promotionFiresAt d times lookback threshold k
      = decide (threshold ≤
          recentSnapCacheMisses (snapCacheMissLogAfter d (times.take k)) d
            (now - lookback)) := by
    unfold promotionFiresAt
    rw [hk]
  rw [hred, snapCacheMissLogAfter_eq_map]
  unfold recentSnapCacheMisses
  have hfilter : ((times.take k).map (fun t => (d, t))).filter
      (fun e => decide (e.1 = d) && decide (now - lookback < e.2))
      = (times.take k).map (fun t => (d, t)) := by
    rw [List.filter_eq_self]
    intro e he
    simp only [List.mem_map] at he
    obtain ⟨t, ht, rfl⟩ := he
    simp [hwin t ht]
  rw [hfilter]
  have hklen : k ≤ times.length := by
    have hlt := (List.getElem?_eq_some.mp hk).1
    omega
  have hlen : ((times.take k).map (fun t => (d, t))).length = k := by
    simp [List.length_take]
    omega
  rw [hlen]
  simp

/-- Claim C2 witness for the amended statement: five calls at times
0..4, lookback 3600, threshold 5: the promotion decision of the fifth
call is exactly at the threshold and fires. -/
theorem claim_C2_witness :
    promotionFiresAt 7 [0, 1, 2, 3, 4] 3600 5 5 = true :=
  (claim_C2_amended 7 [0, 1, 2, 3, 4] 3600 5 5 4 (by decide) (by decide)
    (by decide)).mpr (by decide)

/-- Claim C2 counterexample: with promote_threshold 5, lookback 3600 and
repeated unfiltered reads of the same chain head at times 0, 1, 2, 3, 4
(all within the window), the promotion decision already fires on the
fifth call, refuting the claim that the first five ensure_objects calls
yield the full chain and that it is the sixth call that triggers
creation of the collapsed snapshot. -/
theorem claim_C2_counterexample :
    promotionFiresAt 7 [0, 1, 2, 3, 4] 3600 5 5 = true := by decide

/-- Claim C3: evaluation of the code at the failing input.  The object
(id 1, standing for d_1) carries index range [1, 1] on column 0; the
qualifier asks for column 0 equal to 3.  With the documented equality
operator spelling = (constructor opEq) the filter keeps the object,
because _qual_to_clause only tests for the spelling == (constructor
opEqEq) and treats every other operator as satisfiable; with the ==
spelling the object would be dropped.  The claim, scenario S3 of the
spec and the ensure_objects docstring all describe = as pruning. -/
theorem claim_C3_eq_filter_bug :
    filterObjects [1] (fun _ c => if c = 0 then some (1, 1) else none)
        [[(0, QualOp.opEq, 3)]] = [1] ∧
    filterObjects [1] (fun _ c => if c = 0 then some (1, 1) else none)
        [[(0, QualOp.opEqEq, 3)]] = [] := by
  exact ⟨rfl, rfl⟩

/-- Claim C8: conflating a new delete (kind 1) against the prior change
for the same primary key: over an insert (kind 0) both entries are
dropped and the key disappears from the changeset; over an update
(kind 2) the result is a delete entry carrying the new row data; over a
delete (kind 1) conflation fails with the malformed change-log error. -/
theorem claim_C8_conflate_delete {K : Type} [DecidableEq K]
    (cs : List (K × Nat × ChangeData)) (pk : K) (data : ChangeData) :
    (∀ d0, csLookup cs pk = some (0, d0) →
      conflateChange cs pk 1 data = .ok (csErase cs pk) ∧
      csLookup (csErase cs pk) pk = none) ∧
    (∀ d0, csLookup cs pk = some (2, d0) →
      conflateChange cs pk 1 data = .ok (csErase cs pk ++ [(pk, 1, data)]) ∧
      csLookup (csErase cs pk ++ [(pk, 1, data)]) pk = some (1, data)) ∧
    (∀ d0, csLookup cs pk = some (1, d0) →
      conflateChange cs pk 1 data = .error .malformedDelete) := by
  refine ⟨?_, ?_, ?_⟩
  · intro d0 h
    refine ⟨?_, csLookup_erase cs pk⟩
    unfold conflateChange
    rw [h]
    simp
  · intro d0 h
    constructor
    · unfold conflateChange
      rw [h]
      simp
    · rw [csLookup_append, csLookup_erase]
      simp [csLookup]
  · intro d0 h
    unfold conflateChange
    rw [h]
    simp

/-- Claim C8 witness: the three delete-conflation cases evaluated on
concrete one-entry changesets. -/
theorem claim_C8_witness :
    conflateChange [((1 : Nat), 0, ([] : ChangeData))] 1 1 [] = .ok [] ∧
    conflateChange [((1 : Nat), 2, ([] : ChangeData))] 1 1 [(5, 6)]
      = .ok [(1, 1, [(5, 6)])] ∧
    conflateChange [((1 : Nat), 1, ([] : ChangeData))] 1 1 [] = .error .malformedDelete :=
  ⟨((claim_C8_conflate_delete [((1 : Nat), 0, [])] 1 []).1 [] rfl).1,
   ((claim_C8_conflate_delete [((1 : Nat), 2, [])] 1 [(5, 6)]).2.1 [] rfl).1,
   (claim_C8_conflate_delete [((1 : Nat), 1, [])] 1 []).2.2 [] rfl⟩

theorem claimRefcounts_apply (m : ObjectId → Int) (objs : List ObjectId)
    (x : ObjectId) :
    claimRefcounts m objs x = m x + (objs.count x : Int) := by
  induction objs generalizing m with
  | nil => simp [claimRefcounts]
  | cons o rest ih =>
    rw [claimRefcounts, List.foldl_cons, ← claimRefcounts, ih]
    by_cases h : x = o
    · simp [h, List.count_cons]
      omega
    · simp [h, List.count_cons]

/-- Claim C1: evaluation of the code at the failing input.  The chain is
root SNAP containing the single row (1, 0), older DIFF updating key 1 to
value 1 and newer DIFF updating key 1 to value 2; the diffs list held by
ensure_objects is latest-first, so it is the newer fragment followed by
the older one.  The loop in _create_and_register_temporary_snap applies
the fragments in that list order (newest first) and produces value 1,
while materializing the chain snap-first oldest-to-newest (the order the
spec states and the order in which the yielded list
`[snap] + reversed(diffs)` is consumed) produces value 2. -/
theorem claim_C1_temp_snap_order_bug :
    createTempSnapContents [((1 : Nat), (0 : Nat))]
        [[(true, 1, 2)], [(true, 1, 1)]] = [(1, 1)] ∧
    materializeChainContents [((1 : Nat), (0 : Nat))]
        [[(true, 1, 2)], [(true, 1, 1)]] = [(1, 2)] ∧
    createTempSnapContents [((1 : Nat), (0 : Nat))]
        [[(true, 1, 2)], [(true, 1, 1)]]
      ≠ materializeChainContents [((1 : Nat), (0 : Nat))]
        [[(true, 1, 2)], [(true, 1, 1)]] :=
  ⟨rfl, rfl, by decide⟩

/-- Claim C9: across one complete ensure_objects scope, whether or not
eviction ran, whether or not promotion replaced the pinned set, and on
both exit paths of the caller body (the finally block runs either way),
the net refcount of every object is unchanged: the finally release
decrements exactly the set that is pinned at that point, cancelling the
increments of the claim phases.  The required list is duplicate-free, as
produced by the resolver (a chain plus its root). -/
theorem claim_C9_refcount_balance (m : ObjectId → Int) (required : List ObjectId)
    (evicted promoted : Bool) (newSnap : ObjectId)
    (hnodup : required.Nodup) (x : ObjectId) :
    ensureObjectsScopeRefcounts m required evicted promoted newSnap x = m x := by
  have hcount : (required.count x : Int) = if x ∈ required then 1 else 0 := by
    by_cases hx : x ∈ required
    · rw [List.count_eq_one_of_mem hnodup hx]
      simp [hx]
    · rw [List.count_eq_zero_of_not_mem hx]
      simp [hx]
  unfold ensureObjectsScopeRefcounts
  cases evicted <;> cases promoted <;>
    by_cases hx : x ∈ required <;>
    rcases eq_or_ne x newSnap with rfl | hn <;>
    simp_all [claimRefcounts_apply, releaseRefcounts, List.count_cons]

/-- Claim C9 witness: two required objects, eviction and promotion both
taken, evaluated at one of the required objects. -/
theorem claim_C9_witness :
    ensureObjectsScopeRefcounts (fun _ => 0) [1, 2] true true 3 1 = 0 :=
  claim_C9_refcount_balance (fun _ => 0) [1, 2] true true 3 (by decide) 1

theorem expandPrimaryObjects_mono (parent : ObjectId → Option ObjectId)
    (fuel : Nat) (objs : List ObjectId) (o : ObjectId) (h : o ∈ objs) :
    o ∈ expandPrimaryObjects parent fuel objs := by
  induction fuel generalizing objs with
  | zero => exact h
  | succ f ih =>
    rw [expandPrimaryObjects]
    split
    · exact h
    · exact ih _ (List.mem_append_left _ h)

theorem parentIterate_mem_of_closed (parent : ObjectId → Option ObjectId)
    (objs : List ObjectId)
    (hclosed : ∀ o ∈ objs, ∀ p, parent o = some p → p ∈ objs) :
    ∀ n o p, o ∈ objs → parentIterate parent n o = some p → p ∈ objs := by
  intro n
  induction n with
  | zero =>
    intro o p ho hp
    rw [parentIterate] at hp
    cases hp
    exact ho
  | succ m ih =>
    intro o p ho hp
    rw [parentIterate] at hp
    cases hq : parent o with
    | none => rw [hq] at hp; cases hp
    | some q => rw [hq] at hp; exact ih q p (hclosed o ho q hq) hp

theorem expandPrimaryObjects_reaches (parent : ObjectId → Option ObjectId) :
    ∀ fuel n objs o p, n ≤ fuel → o ∈ objs → parentIterate parent n o = some p →
      p ∈ expandPrimaryObjects parent fuel objs := by
  intro fuel
  induction fuel with
  | zero =>
    intro n objs o p hn ho hp
    have hn0 : n = 0 := Nat.le_zero.mp hn
    subst hn0
    rw [parentIterate] at hp
    cases hp
    exact ho
  | succ f ih =>
    intro n objs o p hn ho hp
    cases n with
    | zero =>
      rw [parentIterate] at hp
      cases hp
      exact expandPrimaryObjects_mono parent (f + 1) objs o ho
    | succ m =>
      rw [parentIterate] at hp
      cases hq : parent o with
      | none => rw [hq] at hp; cases hp
      | some q =>
        rw [hq] at hp
        rw [expandPrimaryObjects]
        by_cases hemp :
            (((objs.filterMap parent).filter (fun a => !(decide (a ∈ objs)))).dedup).isEmpty
        · rw [if_pos hemp]
          have hclosed : ∀ a ∈ objs, ∀ b, parent a = some b → b ∈ objs := by
            intro a ha b hb
            by_contra hnb
            have hbmem :
                b ∈ ((objs.filterMap parent).filter (fun a => !(decide (a ∈ objs)))).dedup := by
              rw [List.mem_dedup, List.mem_filter]
              refine ⟨List.mem_filterMap.mpr ⟨a, ha, hb⟩, by simpa using hnb⟩
            rw [List.isEmpty_iff] at hemp
            rw [hemp] at hbmem
            cases hbmem
          exact parentIterate_mem_of_closed parent objs hclosed (m + 1) o p ho
            (by rw [parentIterate, hq]; exact hp)
        · rw [if_neg hemp]
          have hqmem : q ∈ objs ++ ((objs.filterMap parent).filter
              (fun a => !(decide (a ∈ objs)))).dedup := by
            by_cases hqo : q ∈ objs
            · exact List.mem_append_left _ hqo
            · refine List.mem_append_right _ ?_
              rw [List.mem_dedup, List.mem_filter]
              exact ⟨List.mem_filterMap.mpr ⟨o, ho, hq⟩, by simpa using hqo⟩
          exact ih m _ q p (Nat.le_of_succ_le_succ hn) hqmem hp

theorem greedyEvict_mem_subset (req : Rat) :
    ∀ (l : List EvictionCandidate) (acc : List ObjectId) (freed : Rat) (x : ObjectId),
      x ∈ greedyEvict l req acc freed → x ∈ acc ∨ x ∈ l.map (fun c => c.oid) := by
  intro l
  induction l with
  | nil =>
    intro acc freed x hx
    exact Or.inl hx
  | cons c rest ih =>
    intro acc freed x hx
    rw [greedyEvict] at hx
    by_cases hc : freed + (c.size : Rat) ≥ req
    · rw [if_pos hc] at hx
      rcases List.mem_append.mp hx with h | h
      · exact Or.inl h
      · right
        simp only [List.mem_singleton] at h
        simp [h]
    · rw [if_neg hc] at hx
      rcases ih (acc ++ [c.oid]) (freed + (c.size : Rat)) x hx with h | h
      · rcases List.mem_append.mp h with h1 | h1
        · exact Or.inl h1
        · right
          simp only [List.mem_singleton] at h1
          simp [h1]
      · right
        simp only [List.map_cons, List.mem_cons]
        exact Or.inr h

theorem runEviction_ok_mem (candidates : List EvictionCandidate) (target : Rat)
    (toDelete : List ObjectId)
    (h : runEviction candidates (some target) = .ok toDelete) :
    ∀ x ∈ toDelete, x ∈ candidates.map (fun c => c.oid) := by
  have hred : runEviction candidates (some target)
      = if target > candidatesTotalSize candidates then .error .insufficientReclaimable
        else .ok (greedyEvict (candidates.mergeSort (fun a b => decide (a.score ≤ b.score)))
          target [] 0) := rfl
  rw [hred] at h
  by_cases hgt : target > candidatesTotalSize candidates
  · rw [if_pos hgt] at h
    cases h
  · rw [if_neg hgt] at h
    have hto : greedyEvict (candidates.mergeSort (fun a b => decide (a.score ≤ b.score)))
        target [] 0 = toDelete := Except.ok.inj h
    intro x hx
    rw [← hto] at hx
    rcases greedyEvict_mem_subset target _ [] 0 x hx with hm | hm
    · cases hm
    · exact ((List.mergeSort_perm candidates
        (fun a b => decide (a.score ≤ b.score))).map (fun c => c.oid)).mem_iff.mp hm

theorem evictionCandidateRecords_oid_not_keep (rows : List CacheRow)
    (keep : List ObjectId) (size : ObjectId → Nat) (score : ObjectId → Rat)
    (x : ObjectId)
    (hx : x ∈ (evictionCandidateRecords rows keep size score).map (fun c => c.oid)) :
    x ∉ keep := by
  simp [evictionCandidateRecords, List.mem_filter] at hx
  rcases hx with ⟨b, _, _, hnk⟩ | ⟨b, _, _, hnk⟩ <;> exact hnk

theorem cacheRowFor_delete_of_not_mem (rows : List CacheRow)
    (toDelete : List ObjectId) (o : ObjectId) (ho : o ∉ toDelete) :
    cacheRowFor (deleteCacheRows rows toDelete) o = cacheRowFor rows o := by
  unfold cacheRowFor deleteCacheRows
  induction rows with
  | nil => rfl
  | cons r rest ih =>
    by_cases hr : r.1 ∈ toDelete
    · have hno : ¬ (r.1 = o) := fun he => ho (he ▸ hr)
      simpa [List.filter_cons, hr, List.find?_cons, hno] using ih
    · rw [List.filter_cons, if_pos (by simpa using hr)]
      by_cases he : r.1 = o
      · simp [List.find?_cons, he]
      · simpa [List.find?_cons, he] using ih

/-- Claim C4 (amended): when the download step of ensure_objects leaves a
required object missing, the call raises without yielding.  If eviction
did not run between the Claim and Fetch phases, the rollback issued
before raising restores the cache-status rows, including the refcount
increments of the Claim phase, to their state before the call.  If
eviction ran (and therefore completed its selection: when it raises
instead, the call dies in the eviction phase and never reaches the
download), its internal commits have already persisted the Claim-phase
increments and the final rollback does not undo them: the resulting
state is committed, and on every required object its rows still show the
Claim-phase upsert (eviction only deletes candidates outside the
protected set). -/
theorem claim_C4_fetch_failure_rollback (st : CacheTxState)
    (required : List ObjectId) (size : ObjectId → Nat) (score : ObjectId → Rat)
    (target : Rat) (hconsistent : st.current = st.committed) :
    (ensureObjectsFetchFailState st required false size score target = .ok st) ∧
    (∀ st2, ensureObjectsFetchFailState st required true size score target = .ok st2 →
      st2.current = st2.committed ∧
      ∀ o ∈ required,
        cacheRowFor st2.current o
          = cacheRowFor (claimCacheRows st.current required) o) := by
  constructor
  · cases st with
    | mk committed current =>
      simp only at hconsistent
      unfold ensureObjectsFetchFailState txRollback
      simp [hconsistent, Except.map]
  · intro st2 h
    have hred : ensureObjectsFetchFailState st required true size score target
        = Except.map txRollback (Except.map (fun toDelete =>
            (⟨deleteCacheRows (claimCacheRows st.current required) toDelete,
              claimCacheRows (releaseCacheRows (deleteCacheRows
                (claimCacheRows st.current required) toDelete) required) required⟩ :
              CacheTxState))
            (runEviction (evictionCandidateRecords (claimCacheRows st.current required)
              required size score) (some target))) := rfl
    rw [hred] at h
    cases hre : runEviction (evictionCandidateRecords (claimCacheRows st.current required)
        required size score) (some target) with
    | error e =>
      rw [hre] at h
      simp [Except.map] at h
    | ok toDelete =>
      rw [hre] at h
      simp only [Except.map, Except.ok.injEq, txRollback] at h
      have hnk : ∀ o ∈ required, o ∉ toDelete := by
        intro o hor hod
        exact evictionCandidateRecords_oid_not_keep
          (claimCacheRows st.current required) required size score o
          (runEviction_ok_mem _ _ _ hre o hod) hor
      subst h
      refine ⟨rfl, ?_⟩
      intro o ho
      exact cacheRowFor_delete_of_not_mem (claimCacheRows st.current required)
        toDelete o (hnk o ho)

/-- Claim C4 witness: the no-eviction half on a consistent one-row state,
and the eviction half on the reachable trace of the counterexample (the
resulting state keeps the Claim-phase row of the required object 1). -/
theorem claim_C4_witness :
    (ensureObjectsFetchFailState ⟨[(5, true, 0)], [(5, true, 0)]⟩ [1] false
        (fun _ => 4) (fun _ => 1) 2 = .ok ⟨[(5, true, 0)], [(5, true, 0)]⟩) ∧
    cacheRowFor [(1, false, 1)] 1
      = cacheRowFor (claimCacheRows [(5, true, 0)] [1]) 1 :=
  ⟨(claim_C4_fetch_failure_rollback ⟨[(5, true, 0)], [(5, true, 0)]⟩ [1]
      (fun _ => 4) (fun _ => 1) 2 rfl).1,
   (((claim_C4_fetch_failure_rollback ⟨[(5, true, 0)], [(5, true, 0)]⟩ [1]
      (fun _ => 4) (fun _ => 1) 2 rfl).2 ⟨[(1, false, 1)], [(1, false, 1)]⟩
      (by norm_num [ensureObjectsFetchFailState, runEvictionCacheTx, runEviction,
        evictionCandidateRecords, claimCacheRows, upsertCacheRow, deleteCacheRows,
        releaseCacheRows, txCommit, txRollback, candidatesTotalSize, greedyEvict,
        List.mergeSort_singleton, Except.map])).2 1 (by decide))⟩

/-- Claim C4 counterexample, a reachable trace: cache size 6, one idle
ready victim object 5 of size 4 with refcount 0, required object 1 of
size 4 absent locally.  _prepare_fetch_list finds required_space 4 at
most the cache size and computes the eviction target 4 + 4 - 6 = 2, so
eviction runs, deletes the victim (the candidate total 4 covers the
target) and commits; the download of object 1 then fails and the call
rolls back and raises.  The resulting cache-status rows differ from
those before the call: the victim row is gone and the committed
Claim-phase row of object 1 (ready false, refcount 1) survives the
rollback, refuting the claim in exactly the eviction case it includes. -/
theorem claim_C4_counterexample :
    ensureObjectsFetchFailState ⟨[(5, true, 0)], [(5, true, 0)]⟩ [1] true
        (fun _ => 4) (fun _ => 1) 2
      = .ok ⟨[(1, false, 1)], [(1, false, 1)]⟩ ∧
    (⟨[(1, false, 1)], [(1, false, 1)]⟩ : CacheTxState)
      ≠ ⟨[(5, true, 0)], [(5, true, 0)]⟩ := by
  constructor
  · norm_num [ensureObjectsFetchFailState, runEvictionCacheTx, runEviction,
      evictionCandidateRecords, claimCacheRows, upsertCacheRow, deleteCacheRows,
      releaseCacheRows, txCommit, txRollback, candidatesTotalSize, greedyEvict,
      List.mergeSort_singleton, Except.map]
  · decide

/-- Claim C6 (amended): when at least one required object is missing from
the physical store, _prepare_fetch_list fails with the cache-too-small
error exactly when the missing size exceeds the cache size; when it does
not fail, eviction is invoked exactly when missing size plus current
occupancy exceeds the cache size, and its target is exactly that excess.
When no required object is missing, the function returns at once and
performs neither the check nor eviction. -/
theorem claim_C6_fetch_plan (required : List ObjectId) (downloaded : ObjectId → Bool)
    (size : ObjectId → Nat) (rows : List CacheRow)
    (snapCache : List (ObjectId × ObjectId × Nat)) (cacheSize : Rat)
    (hne : toFetchList required downloaded ≠ []) :
    (prepareFetchList required downloaded size
        (getCacheOccupancy rows size snapCache) cacheSize = .error .cacheTooSmall
      ↔ requiredSpaceOf (toFetchList required downloaded) size > cacheSize) ∧
    ((∃ t, prepareFetchList required downloaded size
        (getCacheOccupancy rows size snapCache) cacheSize
          = .ok (toFetchList required downloaded, some t))
      ↔ (requiredSpaceOf (toFetchList required downloaded) size ≤ cacheSize ∧
          requiredSpaceOf (toFetchList required downloaded) size
            + (getCacheOccupancy rows size snapCache : Rat) > cacheSize)) ∧
    (∀ t, prepareFetchList required downloaded size
        (getCacheOccupancy rows size snapCache) cacheSize
          = .ok (toFetchList required downloaded, some t)
      → t = requiredSpaceOf (toFetchList required downloaded) size
            + (getCacheOccupancy rows size snapCache : Rat) - cacheSize) := by
  have hni : (toFetchList required downloaded).isEmpty = false :=
    List.isEmpty_eq_false.mpr hne
  unfold prepareFetchList
  simp only [hni, Bool.false_eq_true, if_false]
  set rs := requiredSpaceOf (toFetchList required downloaded) size with hrs
  set occ := getCacheOccupancy rows size snapCache with hocc
  by_cases h1 : rs > cacheSize
  · rw [if_pos h1]
    refine ⟨by simp [h1], ?_, by simp⟩
    constructor
    · rintro ⟨t, ht⟩
      cases ht
    · rintro ⟨hle, _⟩
      exact absurd h1 (not_lt.mpr hle)
  · rw [if_neg h1]
    by_cases h2 : rs > cacheSize - (occ : Rat)
    · rw [if_pos h2]
      refine ⟨by simp [h1], ?_, ?_⟩
      · constructor
        · intro _
          exact ⟨not_lt.mp h1, by linarith⟩
        · intro _
          exact ⟨rs + (occ : Rat) - cacheSize, rfl⟩
      · intro t ht
        cases ht
        rfl
    · rw [if_neg h2]
      refine ⟨by simp [h1], ?_, ?_⟩
      · constructor
        · rintro ⟨t, ht⟩
          cases ht
        · rintro ⟨_, hgt⟩
          exact absurd (by linarith : rs > cacheSize - (occ : Rat)) h2
      · intro t ht
        cases ht

/-- Claim C6 witness: one missing object of size 5, empty cache rows, one
snap-cache entry of size 2, cache size 6: no failure, eviction invoked
with target 5 + 2 - 6 = 1. -/
theorem claim_C6_witness :
    (∃ t, prepareFetchList [1] (fun _ => false) (fun _ => 5)
        (getCacheOccupancy [] (fun _ => 5) [(8, 9, 2)]) 6
          = .ok (toFetchList [1] (fun _ => false), some t)) ∧
    (∀ t, prepareFetchList [1] (fun _ => false) (fun _ => 5)
        (getCacheOccupancy [] (fun _ => 5) [(8, 9, 2)]) 6
          = .ok (toFetchList [1] (fun _ => false), some t)
      → t = requiredSpaceOf (toFetchList [1] (fun _ => false)) (fun _ => 5)
            + (getCacheOccupancy [] (fun _ => 5) [(8, 9, 2)] : Rat) - 6) :=
  ⟨(claim_C6_fetch_plan [1] (fun _ => false) (fun _ => 5) [] [(8, 9, 2)] 6
      (by decide)).2.1.mpr (by constructor <;> norm_num [requiredSpaceOf, toFetchList, getCacheOccupancy]),
   (claim_C6_fetch_plan [1] (fun _ => false) (fun _ => 5) [] [(8, 9, 2)] 6
      (by decide)).2.2⟩

/-- Claim C6 counterexample: every required object is already downloaded
(to_fetch is empty), the occupancy (2) exceeds the cache size (1), so
required_space + occupancy = 0 + 2 > 1 and the claim says eviction is
invoked; the code returns immediately without invoking eviction. -/
theorem claim_C6_counterexample :
    prepareFetchList [1] (fun _ => true) (fun _ => 5) 2 1 = .ok ([], none) ∧
    requiredSpaceOf (toFetchList [1] (fun _ => true)) (fun _ => 5) + (2 : Rat) > 1 :=
  ⟨rfl, by norm_num [requiredSpaceOf, toFetchList]⟩

/-- Claim C10: cleanup never drops a physical table that is reachable
from a table-referenced object through the parent links (the transitive
closure computed by its expansion loop, given enough fuel), and never
drops a table registered as a snapshot id in the snap cache, even though
the latter are not reachable from any table binding. -/
theorem claim_C10_cleanup_frame (parent : ObjectId → Option ObjectId) (fuel : Nat)
    (tableObjects tablesInMeta snapCacheIds : List ObjectId) :
    (∀ o ∈ tableObjects, ∀ n ≤ fuel, ∀ p, parentIterate parent n o = some p →
        p ∉ cleanup parent fuel tableObjects tablesInMeta snapCacheIds) ∧
    (∀ s ∈ snapCacheIds, s ∉ cleanup parent fuel tableObjects tablesInMeta snapCacheIds) := by
  constructor
  · intro o ho n hn p hp hmem
    have hprim := expandPrimaryObjects_reaches parent fuel n tableObjects o p hn ho hp
    simp [cleanup, cleanupToDelete, List.mem_filter] at hmem
    exact hmem.2.1 hprim
  · intro s hs hmem
    simp [cleanup, cleanupToDelete, List.mem_filter] at hmem
    exact hmem.2.2 hs

/-- Claim C10 witness: table object 2 with chain 2 → 1 → 0, meta tables
0, 1, 2, 5, 9 and snap-cache snapshot 9: the grandparent 0 and the
snapshot 9 are not dropped (only the orphan 5 is). -/
theorem claim_C10_witness :
    (0 ∉ cleanup (fun o => if o = 2 then some 1 else if o = 1 then some 0 else none)
        3 [2] [0, 1, 2, 5, 9] [9]) ∧
    (9 ∉ cleanup (fun o => if o = 2 then some 1 else if o = 1 then some 0 else none)
        3 [2] [0, 1, 2, 5, 9] [9]) :=
  ⟨(claim_C10_cleanup_frame (fun o => if o = 2 then some 1 else if o = 1 then some 0 else none)
      3 [2] [0, 1, 2, 5, 9] [9]).1 2 (by decide) 2 (by decide) 0 (by decide),
   (claim_C10_cleanup_frame (fun o => if o = 2 then some 1 else if o = 1 then some 0 else none)
      3 [2] [0, 1, 2, 5, 9] [9]).2 9 (by decide)⟩

theorem evictionSizeFactor_eq_max (objectSize floor : Rat) :
    evictionSizeFactor objectSize floor = max objectSize floor := by
  unfold evictionSizeFactor
  rcases lt_trichotomy objectSize floor with h | h | h
  · rw [if_neg (not_lt.mpr h.le), max_eq_right h.le]
  · simp [h]
  · rw [if_pos h, max_eq_left h.le]

theorem greedyEvict_spec (req : Rat) :
    ∀ (l : List EvictionCandidate) (acc : List ObjectId) (freed : Rat),
      freed < req → req ≤ freed + candidatesTotalSize l →
      ∃ n, 0 < n ∧ n ≤ l.length ∧
        greedyEvict l req acc freed = acc ++ (l.take n).map (fun c => c.oid) ∧
        req ≤ freed + candidatesTotalSize (l.take n) ∧
        ∀ m < n, freed + candidatesTotalSize (l.take m) < req := by
  intro l
  induction l with
  | nil =>
    intro acc freed h1 h2
    exfalso
    simp [candidatesTotalSize] at h2
    linarith
  | cons c rest ih =>
    intro acc freed h1 h2
    rw [greedyEvict]
    by_cases hc : freed + (c.size : Rat) ≥ req
    · rw [if_pos hc]
      refine ⟨1, Nat.one_pos, by simp, by simp, ?_, ?_⟩
      · simpa [candidatesTotalSize] using hc
      · intro m hm
        have hm0 : m = 0 := Nat.lt_one_iff.mp hm
        subst hm0
        simpa [candidatesTotalSize] using h1
    · rw [if_neg hc]
      have h1a : freed + (c.size : Rat) < req := lt_of_not_ge hc
      have h2a : req ≤ (freed + (c.size : Rat)) + candidatesTotalSize rest := by
        simp only [candidatesTotalSize, List.map_cons, List.sum_cons] at h2 ⊢
        linarith
      obtain ⟨n, hn0, hnlen, heq, hge, hlt⟩ := ih (acc ++ [c.oid]) (freed + (c.size : Rat)) h1a h2a
      refine ⟨n + 1, Nat.succ_pos n, Nat.succ_le_succ hnlen, ?_, ?_, ?_⟩
      · rw [heq]
        simp [List.take_succ_cons]
      · simpa [candidatesTotalSize, List.take_succ_cons, add_assoc] using hge
      · intro m hm
        cases m with
        | zero => simpa [candidatesTotalSize] using h1
        | succ ml =>
          have := hlt ml (Nat.lt_of_succ_lt_succ hm)
          simpa [candidatesTotalSize, List.take_succ_cons, add_assoc] using this

/-- Claim C5: for every eviction run with a non-None, strictly positive
required space (the only kind the code performs: the target computed by
_prepare_fetch_list is a strict excess): when the total size of the
candidates is smaller than the required space, the run fails with the
insufficient-reclaimable error and deletes nothing; otherwise the
deleted set is the shortest prefix of the candidates sorted by ascending
eviction score whose cumulative size reaches the required space. -/
theorem claim_C5_eviction_selection (candidates : List EvictionCandidate)
    (req : Rat) (hpos : 0 < req) :
    (candidatesTotalSize candidates < req →
      runEviction candidates (some req) = .error .insufficientReclaimable) ∧
    (req ≤ candidatesTotalSize candidates →
      ∃ n, runEviction candidates (some req)
          = .ok (((candidates.mergeSort (fun a b => decide (a.score ≤ b.score))).take n).map
              (fun c => c.oid)) ∧
        req ≤ candidatesTotalSize
          ((candidates.mergeSort (fun a b => decide (a.score ≤ b.score))).take n) ∧
        ∀ m < n, candidatesTotalSize
          ((candidates.mergeSort (fun a b => decide (a.score ≤ b.score))).take m) < req) := by
  have hred : runEviction candidates (some req)
      = if req > candidatesTotalSize candidates then .error .insufficientReclaimable
        else .ok (greedyEvict (candidates.mergeSort (fun a b => decide (a.score ≤ b.score)))
          req [] 0) := rfl
  constructor
  · intro h
    rw [hred, if_pos h]
  · intro h
    rw [hred, if_neg (not_lt.mpr h)]
    have hperm : (candidates.mergeSort (fun a b => decide (a.score ≤ b.score))).Perm candidates :=
      List.mergeSort_perm candidates _
    have hsum : candidatesTotalSize (candidates.mergeSort (fun a b => decide (a.score ≤ b.score)))
        = candidatesTotalSize candidates := by
      unfold candidatesTotalSize
      exact (hperm.map _).sum_eq
    obtain ⟨n, hn0, hnlen, heq, hge, hlt⟩ :=
      greedyEvict_spec req (candidates.mergeSort (fun a b => decide (a.score ≤ b.score))) [] 0
        hpos (by rw [hsum]; simpa using h)
    refine ⟨n, ?_, by simpa using hge, fun m hm => by simpa using hlt m hm⟩
    rw [heq]
    simp

/-- Claim C5 witness: two candidates of size 4 with scores 5 and 1.  With
required space 100 the run fails (only 8 reclaimable); with required
space 2 the deleted set is the shortest score-ascending prefix reaching
2 bytes. -/
theorem claim_C5_witness :
    (runEviction [⟨1, 4, 5⟩, ⟨2, 4, 1⟩] (some 100) = .error .insufficientReclaimable) ∧
    (∃ n, runEviction [⟨1, 4, 5⟩, ⟨2, 4, 1⟩] (some 2)
        = .ok ((([⟨1, 4, 5⟩, ⟨2, 4, 1⟩] : List EvictionCandidate).mergeSort
            (fun a b => decide (a.score ≤ b.score)) |>.take n).map (fun c => c.oid)) ∧
      (2 : Rat) ≤ candidatesTotalSize ((([⟨1, 4, 5⟩, ⟨2, 4, 1⟩] : List EvictionCandidate).mergeSort
            (fun a b => decide (a.score ≤ b.score))).take n) ∧
      ∀ m < n, candidatesTotalSize ((([⟨1, 4, 5⟩, ⟨2, 4, 1⟩] : List EvictionCandidate).mergeSort
            (fun a b => decide (a.score ≤ b.score))).take m) < 2) :=
  ⟨(claim_C5_eviction_selection [⟨1, 4, 5⟩, ⟨2, 4, 1⟩] 100 (by norm_num)).1
      (by norm_num [candidatesTotalSize]),
   (claim_C5_eviction_selection [⟨1, 4, 5⟩, ⟨2, 4, 1⟩] 2 (by norm_num)).2
      (by norm_num [candidatesTotalSize])⟩

end SGR
